import Mathlib

set_option maxRecDepth 100000

/-!
Verification of the HPS167 Time-of-Flight distance sensor driver
(`src/drivers/distance_sensor/hps167/HPS167.hpp`): the wire-frame protocol
(command encoding, response framing, CRC16-CCITT validation) and the
measurement state machine (periodic sampling, resynchronisation, and
threshold-based recovery).

The repository ships only the interface header; the protocol constants and
the frame layout are taken from it, and the function bodies are modelled
from the design specification as noted on each definition.
-/

namespace HPS167

/-- Frame start delimiter (source constant `START_BYTE`). -/
def START_BYTE : Nat := 0x0A

/-- Continuous-ranging command (source constant `CMD_CONTINUOUS_RANGING`):
start byte, command byte 0x24, six zero data bytes, and precomputed CRC. -/
def CMD_CONTINUOUS_RANGING : List Nat :=
  [0x0A, 0x24, 0x00, 0x00, 0x00, 0x00, 0x00, 0x00, 0x0F, 0x72]

/-- Single-ranging command, from the source header comment: command byte 0x22
with documented CRC 0xAE 0x57. -/
def CMD_SINGLE_RANGING : List Nat :=
  [0x0A, 0x22, 0x00, 0x00, 0x00, 0x00, 0x00, 0x00, 0xAE, 0x57]

/-- Byte offset of the distance MSB in a response frame (source constant). -/
def DISTANCE_MSB_POS : Nat := 5

/-- Byte offset of the distance LSB in a response frame (source constant). -/
def DISTANCE_LSB_POS : Nat := 6

/-- Total response frame length in bytes, from the source header layout:
start (1) + length (1) + reserved (3) + distance (2) + magnitude (3) +
ambient (1) + precision (2) + CRC (2) = 15, matching `_linebuf[15]`. -/
def RESPONSE_FRAME_LENGTH : Nat := 15

/-- Value of the length byte of a response frame: 0x0D = 13, the number of
data bytes following the start and length bytes (source comment
"0x0D: Data length (13 byte data)"). -/
def LENGTH_BYTE_VALUE : Nat := 0x0D

/-- One shift-register step of CRC-16/CCITT (polynomial 0x1021, MSB first),
on a 16-bit state kept as a `Nat` reduced modulo 2^16. -/
def crc16_bit (c : Nat) : Nat :=
  if c &&& 0x8000 ≠ 0 then ((c <<< 1) ^^^ 0x1021) &&& 0xFFFF
  else (c <<< 1) &&& 0xFFFF

/-- Absorb one data byte into the CRC state: XOR into the high byte, then
eight shift-register steps. -/
def crc16_byte (c b : Nat) : Nat :=
  crc16_bit (crc16_bit (crc16_bit (crc16_bit
    (crc16_bit (crc16_bit (crc16_bit (crc16_bit (c ^^^ ((b &&& 0xFF) <<< 8)))))))))

/-- Modelled from the spec: the body of `HPS167::crc16_calc` is not in the
repository (the header only declares it). The spec fixes it as CRC16-CCITT
consistent with the documented worked examples; the variant with initial
state 0xFFFF, polynomial 0x1021, MSB first (CCITT-FALSE) reproduces both
documented command CRCs (0x0F72 and 0xAE57). The C declaration takes a
pointer and a length; here the byte range is a `List Nat`. -/
def crc16_calc (data_frame : List Nat) : Nat :=
  data_frame.foldl crc16_byte 0xFFFF

/-- A decoded sensor reading, after the spec data model
`{ distance_m, magnitude, ambient, precision, valid }`; the two float
fields are modelled as rationals. -/
structure Reading where
  distance_m : ℚ
  magnitude : ℚ
  ambient : Nat
  precision : Nat
  valid : Bool
deriving DecidableEq

/-- Result of one decode attempt, after the spec error taxonomy:
`Incomplete` (need more bytes), `Corrupt` (length or CRC mismatch), or a
successfully decoded reading. -/
inductive DecodeResult where
  | Incomplete : DecodeResult
  | Corrupt : DecodeResult
  | Ok : Reading → DecodeResult
deriving DecidableEq

/-- Index of the first occurrence of the start byte 0x0A in a buffer. -/
def findStartIdx : List Nat → Option Nat
  | [] => none
  | b :: rest =>
    if b = START_BYTE then some 0 else (findStartIdx rest).map (fun i => i + 1)

/-- Modelled from the spec: decode of one candidate frame, given the buffer
suffix that begins at the start byte. The body of `HPS167::collect` is not
in the repository; layout and checks follow the source header comment:
length byte 0x0D at offset 1, CRC16 over bytes 2 through 12 (reserved
through precision) checked against the trailing big-endian CRC at offsets
13 and 14, distance at offsets 5 and 6 in millimetres, magnitude MSB/LSB at
offsets 7 and 8 scaled by the documented shift by 2 then division by 10000,
ambient at offset 10, precision big-endian at offsets 11 and 12. -/
def decodeFrameAt (rest : List Nat) : DecodeResult :=
  if rest.length < RESPONSE_FRAME_LENGTH then DecodeResult.Incomplete
  else if rest.getD 1 0 ≠ LENGTH_BYTE_VALUE then DecodeResult.Corrupt
  else if crc16_calc ((rest.drop 2).take 11) ≠
      (rest.getD 13 0) * 256 + rest.getD 14 0 then DecodeResult.Corrupt
  else DecodeResult.Ok
    { distance_m :=
        (((rest.getD DISTANCE_MSB_POS 0) * 256 + rest.getD DISTANCE_LSB_POS 0 : Nat) : ℚ) / 1000
      magnitude := ((((rest.getD 7 0) * 256 + rest.getD 8 0) <<< 2 : Nat) : ℚ) / 10000
      ambient := rest.getD 10 0
      precision := (rest.getD 11 0) * 256 + rest.getD 12 0
      valid := true }

/-- Modelled from the spec: `try_decode(buffer)` scans the buffer for the
start byte; with no start byte the caller must accumulate more bytes; with a
start byte, the suffix from it is decoded as a candidate frame. -/
def tryDecode (buffer : List Nat) : DecodeResult :=
  match findStartIdx buffer with
  | none => DecodeResult.Incomplete
  | some i => decodeFrameAt (buffer.drop i)

/-- Modelled from the spec: `encode_continuous_ranging_command()` returns
the fixed 10-byte command; it takes no input and cannot fail. -/
def encode_continuous_ranging_command : Unit → List Nat :=
  fun _ => CMD_CONTINUOUS_RANGING

/-- The response frame of the source header example decoding: distance
bytes 0x06 0xD9 (1.753 m), magnitude bytes 0xFC 0x8C with exponent byte
0x02, ambient 1, precision 1, and the documented CRC 0x9B 0x94. -/
def exampleFrame : List Nat :=
  [0x0A, 0x0D, 0x22, 0x15, 0x00, 0x06, 0xD9, 0xFC, 0x8C, 0x02, 0x01, 0x00, 0x01, 0x9B, 0x94]

/-- A CRC-valid response frame whose distance field holds 0xFFFA = 65530,
the sensor's 65.53 m over-range indication. -/
def overRangeFrame : List Nat :=
  [0x0A, 0x0D, 0x00, 0x00, 0x00, 0xFF, 0xFA, 0x00, 0x00, 0x00, 0x00, 0x00, 0x00, 0x9C, 0x96]

/-- `exampleFrame` with its final CRC byte corrupted. -/
def corruptFrame : List Nat :=
  [0x0A, 0x0D, 0x22, 0x15, 0x00, 0x06, 0xD9, 0xFC, 0x8C, 0x02, 0x01, 0x00, 0x01, 0x9B, 0x95]

/-- `Ok` discriminator for decode results. -/
def isOkResult : DecodeResult → Bool
  | DecodeResult.Ok _ => true
  | _ => false

/-- Bytes remaining in the buffer after the accepted frame: everything past
the start byte plus one full response frame. -/
def consumeFrame (buf : List Nat) : List Nat :=
  match findStartIdx buf with
  | none => buf
  | some i => buf.drop (i + RESPONSE_FRAME_LENGTH)

/-- Modelled from the spec: the within-tick resynchronisation loop of the
measurement cycle (the body of `HPS167::collect` is not in the repository).
Repeatedly attempt a decode; on `Corrupt`, discard the buffer's leading
byte and retry; stop on `Incomplete` or on a decoded reading. Returns the
reading if one was produced, the remaining buffer, and whether any
`Corrupt` result was seen. The fuel argument bounds the number of
discarded bytes by the buffer length. -/
def decodeLoopAux : Nat → Bool → List Nat → Option Reading × List Nat × Bool
  | 0, saw, buf => (none, buf, saw)
  | fuel + 1, saw, buf =>
    match tryDecode buf with
    | DecodeResult.Incomplete => (none, buf, saw)
    | DecodeResult.Ok r => (some r, consumeFrame buf, saw)
    | DecodeResult.Corrupt => decodeLoopAux fuel true (buf.drop 1)

/-- Run the resynchronisation loop with enough fuel to scan the whole
buffer. -/
def decodeLoop (buf : List Nat) : Option Reading × List Nat × Bool :=
  decodeLoopAux buf.length false buf

/-- States of the measurement state machine, from the spec:
`Stopped → Starting → Sampling ⇄ Recovering → Stopped`. -/
inductive SMState where
  | Stopped : SMState
  | Starting : SMState
  | Sampling : SMState
  | Recovering : SMState
deriving DecidableEq

/-- Measurement cycle state: machine state, receive buffer, consecutive
error count, and the configured error threshold. -/
structure Machine where
  state : SMState
  buffer : List Nat
  consecutiveErrors : Nat
  threshold : Nat
deriving DecidableEq

/-- The external world's contribution to one tick: whether the
non-blocking read succeeded, the bytes it produced, and whether a port
reopen or a command write attempted during this tick would succeed. -/
structure TickInput where
  readOk : Bool
  bytes : List Nat
  reopenOk : Bool
  writeOk : Bool
deriving DecidableEq

/-- Events driving the state machine: a `start()` call (with the outcome
the port adapter would give the command write), a `stop()` call, or one
periodic scheduler tick. -/
inductive Event where
  | start : Bool → Event
  | stop : Event
  | tick : TickInput → Event
deriving DecidableEq

/-- Externally visible actions of one step: a port-adapter read, a
port-adapter write, a published reading, or a port-reopen request. -/
inductive Effect where
  | portRead : Effect
  | portWrite : List Nat → Effect
  | publish : Reading → Effect
  | reopen : Effect
deriving DecidableEq

/-- `tick` discriminator for events. -/
def isTickEvent : Event → Bool
  | Event.tick _ => true
  | _ => false

/-- The initial machine: stopped, empty buffer, no errors. -/
def initialMachine (threshold : Nat) : Machine :=
  { state := SMState.Stopped, buffer := [], consecutiveErrors := 0, threshold := threshold }

/-- Whether a sampling tick ends in an error: the read failed, or the
decode loop saw corruption and still produced no valid frame (spec: the
error counter advances once per tick in which no valid frame was
ultimately produced; a plain `Incomplete` is a continuation, not an
error). -/
def tickError (m : Machine) (inp : TickInput) : Bool :=
  !inp.readOk ||
    (match decodeLoop (m.buffer ++ inp.bytes) with
     | (none, _, true) => true
     | _ => false)

/-- Modelled from the spec: one step of the measurement state machine (the
bodies of `HPS167::start`, `HPS167::stop` and `HPS167::Run` are not in the
repository). `stop()` discards buffered bytes and moves to `Stopped` from
any state. `start()` acts from `Stopped`: it clears the buffer and error
counter and issues the continuous-ranging command exactly once, entering
`Sampling` on write success and staying in `Starting` on write failure. A
tick in `Sampling` reads available bytes and runs the decode loop:
publishing a decoded reading resets the error counter; an error tick
advances it and, past the configured threshold, moves to `Recovering`; a
plain `Incomplete` waits. A tick in `Recovering` requests one port reopen
and, if the reopen succeeds, re-issues the start command, resuming
`Sampling` on write success. -/
def stepM (m : Machine) : Event → Machine × List Effect
  | Event.stop =>
    ({ m with state := SMState.Stopped, buffer := [], consecutiveErrors := 0 }, [])
  | Event.start writeOk =>
    match m.state with
    | SMState.Stopped =>
      if writeOk then
        ({ m with state := SMState.Sampling, buffer := [], consecutiveErrors := 0 },
          [Effect.portWrite CMD_CONTINUOUS_RANGING])
      else
        ({ m with state := SMState.Starting, buffer := [], consecutiveErrors := 1 },
          [Effect.portWrite CMD_CONTINUOUS_RANGING])
    | _ => (m, [])
  | Event.tick inp =>
    match m.state with
    | SMState.Stopped => (m, [])
    | SMState.Starting => (m, [])
    | SMState.Sampling =>
      if inp.readOk then
        match decodeLoop (m.buffer ++ inp.bytes) with
        | (some r, rest, _) =>
          ({ m with buffer := rest, consecutiveErrors := 0 },
            [Effect.portRead, Effect.publish r])
        | (none, rest, true) =>
          if m.threshold < m.consecutiveErrors + 1 then
            ({ m with
                state := SMState.Recovering
                buffer := []
                consecutiveErrors := m.consecutiveErrors + 1 }, [Effect.portRead])
          else
            ({ m with buffer := rest, consecutiveErrors := m.consecutiveErrors + 1 },
              [Effect.portRead])
        | (none, rest, false) => ({ m with buffer := rest }, [Effect.portRead])
      else
        if m.threshold < m.consecutiveErrors + 1 then
          ({ m with
              state := SMState.Recovering
              buffer := []
              consecutiveErrors := m.consecutiveErrors + 1 }, [Effect.portRead])
        else
          ({ m with consecutiveErrors := m.consecutiveErrors + 1 }, [Effect.portRead])
    | SMState.Recovering =>
      if inp.reopenOk then
        if inp.writeOk then
          ({ m with state := SMState.Sampling, buffer := [], consecutiveErrors := 0 },
            [Effect.reopen, Effect.portWrite CMD_CONTINUOUS_RANGING])
        else
          ({ m with
              state := SMState.Starting
              buffer := []
              consecutiveErrors := m.consecutiveErrors + 1 },
            [Effect.reopen, Effect.portWrite CMD_CONTINUOUS_RANGING])
      else (m, [Effect.reopen])

/-- The machine obtained by running a sequence of events. -/
def machineAfter (m : Machine) : List Event → Machine
  | [] => m
  | e :: es => machineAfter (stepM m e).1 es

/-- The effect list of each step of a sequence of events. -/
def effTrace (m : Machine) : List Event → List (List Effect)
  | [] => []
  | e :: es => (stepM m e).2 :: effTrace (stepM m e).1 es

/-- The start byte stands at the index `findStartIdx` reports. -/
theorem findStartIdx_getD (buffer : List Nat) (i : Nat)
    (h : findStartIdx buffer = some i) : buffer.getD i 0 = START_BYTE := by
  induction buffer generalizing i with
  | nil => simp [findStartIdx] at h
  | cons b rest ih =>
    by_cases hb : b = START_BYTE
    · simp [findStartIdx, hb] at h
      simp [← h, List.getD_cons_zero, hb]
    · simp only [findStartIdx, hb, if_false, Option.map_eq_some'] at h
      obtain ⟨j, hj, rfl⟩ := h
      simpa [List.getD_cons_succ] using ih j hj

/-- The example frame of the source header decodes to the documented
values: 1.753 m distance, magnitude 25.8608, ambient 1, precision 1. -/
theorem exampleFrame_decodes :
    tryDecode exampleFrame = DecodeResult.Ok
      { distance_m := 1753 / 1000, magnitude := 258608 / 10000,
        ambient := 1, precision := 1, valid := true } := by
  have hcrc : crc16_calc [0x22, 0x15, 0x00, 0x06, 0xD9, 0xFC, 0x8C, 0x02, 0x01, 0x00, 0x01] =
      0x9B94 := by decide
  norm_num [tryDecode, findStartIdx, START_BYTE, exampleFrame, decodeFrameAt,
    RESPONSE_FRAME_LENGTH, LENGTH_BYTE_VALUE, DISTANCE_MSB_POS, DISTANCE_LSB_POS,
    DecodeResult.Ok.injEq, Reading.mk.injEq, hcrc, Nat.shiftLeft_eq]

/-- C1 (counterexample): the claimed frame layout does not have total
length 13: the decoder accepts `exampleFrame`, whose length is 15, not 13,
and its 13-byte prefix is an incomplete frame, not an accepted one. -/
theorem C1_counterexample :
    isOkResult (tryDecode exampleFrame) = true ∧
    exampleFrame.length = 15 ∧ ¬ exampleFrame.length = 13 ∧
    tryDecode (exampleFrame.take 13) = DecodeResult.Incomplete := by
  refine ⟨by decide, by decide, by decide, by decide⟩

/-- C1 (amended): the response frame, laid out as start delimiter, length
byte, 3 reserved bytes, 2-byte distance, 3-byte magnitude, 1-byte ambient,
2-byte precision and 2-byte CRC, has fixed total length 15 bytes; the
length byte carries the value 0x0D = 13, the count of bytes after the
start and length bytes. Every complete frame the decoder accepts is
exactly 15 bytes long: no buffer shorter than 15 bytes past the start byte
leaves `Incomplete`, bytes past the 15th change nothing, and an accepted
frame consumes exactly 15 bytes of the buffer. -/
theorem C1_frame_length :
    (1 + 1 + 3 + 2 + 3 + 1 + 2 + 2 = RESPONSE_FRAME_LENGTH ∧
      RESPONSE_FRAME_LENGTH = 15 ∧ LENGTH_BYTE_VALUE = 13) ∧
    (∀ rest : List Nat, decodeFrameAt rest ≠ DecodeResult.Incomplete →
      RESPONSE_FRAME_LENGTH ≤ rest.length) ∧
    (∀ frame extra : List Nat, frame.length = RESPONSE_FRAME_LENGTH →
      decodeFrameAt (frame ++ extra) = decodeFrameAt frame) ∧
    (∀ (buf : List Nat) (i : Nat), findStartIdx buf = some i →
      consumeFrame buf = buf.drop (i + RESPONSE_FRAME_LENGTH)) := by
  refine ⟨⟨by decide, by decide, by decide⟩, ?_, ?_, ?_⟩
  · intro rest h
    by_contra hlen
    push_neg at hlen
    exact h (by simp [decodeFrameAt, hlen])
  · intro frame extra hlen
    have hg : ∀ k, k < RESPONSE_FRAME_LENGTH →
        (frame ++ extra).getD k 0 = frame.getD k 0 := by
      intro k hk
      exact List.getD_append frame extra 0 k (by rw [hlen]; exact hk)
    have hcrc : ((frame ++ extra).drop 2).take 11 = (frame.drop 2).take 11 := by
      rw [List.drop_append_of_le_length (by rw [hlen]; norm_num [RESPONSE_FRAME_LENGTH])]
      exact List.take_append_of_le_length
        (by simp only [List.length_drop, hlen]; norm_num [RESPONSE_FRAME_LENGTH])
    simp only [decodeFrameAt, List.length_append, hlen, hcrc,
      hg 1 (by norm_num [RESPONSE_FRAME_LENGTH]),
      hg DISTANCE_MSB_POS (by norm_num [RESPONSE_FRAME_LENGTH, DISTANCE_MSB_POS]),
      hg DISTANCE_LSB_POS (by norm_num [RESPONSE_FRAME_LENGTH, DISTANCE_LSB_POS]),
      hg 7 (by norm_num [RESPONSE_FRAME_LENGTH]), hg 8 (by norm_num [RESPONSE_FRAME_LENGTH]),
      hg 10 (by norm_num [RESPONSE_FRAME_LENGTH]), hg 11 (by norm_num [RESPONSE_FRAME_LENGTH]),
      hg 12 (by norm_num [RESPONSE_FRAME_LENGTH]), hg 13 (by norm_num [RESPONSE_FRAME_LENGTH]),
      hg 14 (by norm_num [RESPONSE_FRAME_LENGTH])]
    have : ¬ frame.length + extra.length < RESPONSE_FRAME_LENGTH := by omega
    simp [this, hlen]
  · intro buf i h
    simp [consumeFrame, h]

/-- C1 witness: the amended frame-length facts at concrete inputs — the
accepted example frame is at least 15 bytes long, trailing extra bytes do
not change its decode, and accepting it consumes exactly 15 bytes. -/
theorem C1_frame_length_witness :
    RESPONSE_FRAME_LENGTH ≤ exampleFrame.length ∧
    decodeFrameAt (exampleFrame ++ [0, 1]) = decodeFrameAt exampleFrame ∧
    consumeFrame exampleFrame = exampleFrame.drop (0 + RESPONSE_FRAME_LENGTH) :=
  ⟨C1_frame_length.2.1 exampleFrame (by decide),
    C1_frame_length.2.2.1 exampleFrame [0, 1] (by decide),
    C1_frame_length.2.2.2 exampleFrame 0 (by decide)⟩

/-- C2: the continuous-ranging command encoder takes no input, never fails
(it is a total function), and returns exactly the fixed 10-byte sequence
0x0A 0x24 0x00 0x00 0x00 0x00 0x00 0x00 0x0F 0x72. -/
theorem C2_encode_continuous :
    ∀ u : Unit, encode_continuous_ranging_command u =
        [0x0A, 0x24, 0x00, 0x00, 0x00, 0x00, 0x00, 0x00, 0x0F, 0x72] ∧
      (encode_continuous_ranging_command u).length = 10 :=
  fun _ => ⟨rfl, rfl⟩

/-- C2 witness: the encoder evaluated at its only input. -/
theorem C2_witness :
    encode_continuous_ranging_command () =
        [0x0A, 0x24, 0x00, 0x00, 0x00, 0x00, 0x00, 0x00, 0x0F, 0x72] ∧
      (encode_continuous_ranging_command ()).length = 10 :=
  C2_encode_continuous ()

/-- C3: the CRC16 function applied to the first 8 bytes of the
continuous-ranging command (start byte, command byte, six zero data bytes)
returns 0x0F72, and applied to the first 8 bytes of the single-ranging
command returns 0xAE57, as the source header documents. -/
theorem C3_crc_command_examples :
    CMD_CONTINUOUS_RANGING.take 8 = [0x0A, 0x24, 0x00, 0x00, 0x00, 0x00, 0x00, 0x00] ∧
    crc16_calc (CMD_CONTINUOUS_RANGING.take 8) = 0x0F72 ∧
    CMD_SINGLE_RANGING.take 8 = [0x0A, 0x22, 0x00, 0x00, 0x00, 0x00, 0x00, 0x00] ∧
    crc16_calc (CMD_SINGLE_RANGING.take 8) = 0xAE57 :=
  ⟨by decide, by decide, by decide, by decide⟩

/-- C4: every successfully decoded reading carries distance
(distance_MSB * 256 + distance_LSB) / 1000 metres, read at the fixed
offsets after the start byte; on the documented example frame with
distance bytes 0x06 0xD9 the decoded distance is within 0.001 of 1.753. -/
theorem C4_distance_formula :
    (∀ (buffer : List Nat) (r : Reading), tryDecode buffer = DecodeResult.Ok r →
      ∃ i, findStartIdx buffer = some i ∧
        r.distance_m =
          ((((buffer.drop i).getD DISTANCE_MSB_POS 0) * 256 +
            (buffer.drop i).getD DISTANCE_LSB_POS 0 : Nat) : ℚ) / 1000) ∧
    (∃ r, tryDecode exampleFrame = DecodeResult.Ok r ∧ |r.distance_m - 1.753| ≤ 0.001) := by
  constructor
  · intro buffer r h
    cases hf : findStartIdx buffer with
    | none => simp only [tryDecode, hf] at h; exact absurd h (by simp)
    | some i =>
      simp only [tryDecode, hf, decodeFrameAt] at h
      refine ⟨i, rfl, ?_⟩
      split_ifs at h
      injection h with h
      rw [← h]
  · refine ⟨_, exampleFrame_decodes, ?_⟩
    norm_num

/-- C4 witness: the distance formula instantiated at the documented
example frame. -/
theorem C4_witness :
    ∃ i, findStartIdx exampleFrame = some i ∧
      (Reading.mk (1753 / 1000) (258608 / 10000) 1 1 true).distance_m =
        ((((exampleFrame.drop i).getD DISTANCE_MSB_POS 0) * 256 +
          (exampleFrame.drop i).getD DISTANCE_LSB_POS 0 : Nat) : ℚ) / 1000 :=
  C4_distance_formula.1 exampleFrame
    (Reading.mk (1753 / 1000) (258608 / 10000) 1 1 true) exampleFrame_decodes

/-- C5: every successfully decoded reading carries magnitude equal to the
16-bit big-endian magnitude value shifted left by 2 bits then divided by
10000; on the documented example frame with magnitude bytes 0xFC 0x8C the
decoded magnitude is within 0.001 of 25.8608. -/
theorem C5_magnitude_formula :
    (∀ (buffer : List Nat) (r : Reading), tryDecode buffer = DecodeResult.Ok r →
      ∃ i, findStartIdx buffer = some i ∧
        r.magnitude =
          (((((buffer.drop i).getD 7 0) * 256 + (buffer.drop i).getD 8 0) <<< 2 : Nat) : ℚ)
            / 10000) ∧
    (∃ r, tryDecode exampleFrame = DecodeResult.Ok r ∧ |r.magnitude - 25.8608| ≤ 0.001) := by
  constructor
  · intro buffer r h
    cases hf : findStartIdx buffer with
    | none => simp only [tryDecode, hf] at h; exact absurd h (by simp)
    | some i =>
      simp only [tryDecode, hf, decodeFrameAt] at h
      refine ⟨i, rfl, ?_⟩
      split_ifs at h
      injection h with h
      rw [← h]
  · refine ⟨_, exampleFrame_decodes, ?_⟩
    norm_num

/-- C5 witness: the magnitude formula instantiated at the documented
example frame. -/
theorem C5_witness :
    ∃ i, findStartIdx exampleFrame = some i ∧
      (Reading.mk (1753 / 1000) (258608 / 10000) 1 1 true).magnitude =
        (((((exampleFrame.drop i).getD 7 0) * 256 +
          (exampleFrame.drop i).getD 8 0) <<< 2 : Nat) : ℚ) / 10000 :=
  C5_magnitude_formula.1 exampleFrame
    (Reading.mk (1753 / 1000) (258608 / 10000) 1 1 true) exampleFrame_decodes

/-- C6: whenever the start byte is found but fewer bytes than one full
response frame remain from it, decoding reports `Incomplete` — never
`Corrupt` and never a decoded reading. -/
theorem C6_incomplete_short_buffer :
    ∀ (buffer : List Nat) (i : Nat), findStartIdx buffer = some i →
      buffer.length - i < RESPONSE_FRAME_LENGTH →
      tryDecode buffer = DecodeResult.Incomplete := by
  intro buffer i h hlen
  simp only [tryDecode, h, decodeFrameAt]
  rw [if_pos]
  simpa using hlen

/-- C6 witness: a 4-byte buffer beginning with the start byte decodes to
`Incomplete`. -/
theorem C6_witness :
    findStartIdx [0x0A, 0x0D, 1, 2] = some 0 ∧
    [0x0A, 0x0D, 1, 2].length - 0 < RESPONSE_FRAME_LENGTH ∧
    tryDecode [0x0A, 0x0D, 1, 2] = DecodeResult.Incomplete :=
  ⟨by decide, by decide,
    C6_incomplete_short_buffer [0x0A, 0x0D, 1, 2] 0 (by decide) (by decide)⟩

/-- C7: when a full-length candidate frame is present, a reading is
returned (always with valid = true) only if the start byte matches 0x0A,
the length byte equals the expected constant 0x0D, and the CRC recomputed
over frame bytes 2 through 12 equals the transmitted trailing big-endian
CRC; if the length byte or the CRC does not match, decoding returns
`Corrupt`. -/
theorem C7_validity_checks :
    ∀ (buffer : List Nat) (i : Nat), findStartIdx buffer = some i →
      RESPONSE_FRAME_LENGTH ≤ buffer.length - i →
      (∀ r, tryDecode buffer = DecodeResult.Ok r →
        r.valid = true ∧
        buffer.getD i 0 = START_BYTE ∧
        (buffer.drop i).getD 1 0 = LENGTH_BYTE_VALUE ∧
        crc16_calc (((buffer.drop i).drop 2).take 11) =
          ((buffer.drop i).getD 13 0) * 256 + (buffer.drop i).getD 14 0) ∧
      (((buffer.drop i).getD 1 0 ≠ LENGTH_BYTE_VALUE ∨
        crc16_calc (((buffer.drop i).drop 2).take 11) ≠
          ((buffer.drop i).getD 13 0) * 256 + (buffer.drop i).getD 14 0) →
        tryDecode buffer = DecodeResult.Corrupt) := by
  intro buffer i hstart hlen
  have hdl : ¬ (buffer.drop i).length < RESPONSE_FRAME_LENGTH := by
    simp only [List.length_drop]
    omega
  constructor
  · intro r h
    simp only [tryDecode, hstart, decodeFrameAt] at h
    rw [if_neg hdl] at h
    by_cases h2 : (buffer.drop i).getD 1 0 ≠ LENGTH_BYTE_VALUE
    · rw [if_pos h2] at h
      exact absurd h (by simp)
    · rw [if_neg h2] at h
      by_cases h3 : crc16_calc (((buffer.drop i).drop 2).take 11) ≠
          ((buffer.drop i).getD 13 0) * 256 + (buffer.drop i).getD 14 0
      · rw [if_pos h3] at h
        exact absurd h (by simp)
      · rw [if_neg h3] at h
        push_neg at h2 h3
        injection h with h
        exact ⟨by rw [← h], findStartIdx_getD buffer i hstart, h2, h3⟩
  · intro hbad
    simp only [tryDecode, hstart, decodeFrameAt]
    rw [if_neg hdl]
    rcases hbad with hb | hb
    · rw [if_pos hb]
    · by_cases h2 : (buffer.drop i).getD 1 0 ≠ LENGTH_BYTE_VALUE
      · rw [if_pos h2]
      · rw [if_neg h2, if_pos hb]

/-- C7 witness: the example frame with its final CRC byte corrupted is
rejected as `Corrupt`. -/
theorem C7_witness : tryDecode corruptFrame = DecodeResult.Corrupt :=
  (C7_validity_checks corruptFrame 0 (by decide) (by decide)).2 (Or.inr (by decide))

/-- C8: a CRC-valid frame whose distance field holds the over-range
indication 0xFFFA = 65530 (65.53 m) decodes to an ordinary successful
reading carrying exactly that distance — no clamping, rejection, or
special flagging. -/
theorem C8_over_range_pass_through :
    tryDecode overRangeFrame = DecodeResult.Ok
      { distance_m := 6553 / 100, magnitude := 0, ambient := 0,
        precision := 0, valid := true } ∧
    (6553 / 100 : ℚ) = 65.53 := by
  constructor
  · have hcrc : crc16_calc [0x00, 0x00, 0x00, 0xFF, 0xFA, 0x00, 0x00, 0x00, 0x00, 0x00, 0x00] =
        0x9C96 := by decide
    norm_num [tryDecode, findStartIdx, START_BYTE, overRangeFrame, decodeFrameAt,
      RESPONSE_FRAME_LENGTH, LENGTH_BYTE_VALUE, DISTANCE_MSB_POS, DISTANCE_LSB_POS,
      DecodeResult.Ok.injEq, Reading.mk.injEq, hcrc, Nat.shiftLeft_eq]
  · norm_num

/-- A tick of a stopped machine does nothing and produces no effects. -/
theorem stepM_stopped_tick (m : Machine) (inp : TickInput)
    (h : m.state = SMState.Stopped) : stepM m (Event.tick inp) = (m, []) := by
  simp [stepM, h]

/-- A stopped machine fed only ticks stays silent: its whole effect trace
is empty. -/
theorem ticksFromStopped (m : Machine) (es : List Event)
    (hm : m.state = SMState.Stopped) (hts : ∀ e ∈ es, isTickEvent e = true) :
    (effTrace m es).flatten = [] := by
  induction es generalizing m with
  | nil => simp [effTrace]
  | cons e es ih =>
    have he : isTickEvent e = true := hts e (List.mem_cons_self e es)
    cases e with
    | start w => simp [isTickEvent] at he
    | stop => simp [isTickEvent] at he
    | tick inp =>
      rw [effTrace, stepM_stopped_tick m inp hm]
      simpa using ih m hm (fun x hx => hts x (List.mem_cons_of_mem _ hx))

/-- The effect list of a tick in `Sampling` is a port read, possibly
followed by one published reading. -/
theorem sampling_tick_effects (m : Machine) (inp : TickInput)
    (hs : m.state = SMState.Sampling) :
    (stepM m (Event.tick inp)).2 = [Effect.portRead] ∨
      ∃ r, (stepM m (Event.tick inp)).2 = [Effect.portRead, Effect.publish r] := by
  simp only [stepM, hs]
  by_cases hr : inp.readOk
  · rcases hd : decodeLoop (m.buffer ++ inp.bytes) with ⟨o, rest, saw⟩
    cases o with
    | none =>
      cases saw
      · simp [hr, hd]
      · by_cases ht : m.threshold < m.consecutiveErrors + 1 <;> simp [hr, hd, ht]
    | some r => exact Or.inr ⟨r, by simp [hr, hd]⟩
  · simp only [Bool.not_eq_true] at hr
    by_cases ht : m.threshold < m.consecutiveErrors + 1 <;> simp [hr, ht]

/-- The effect list of a tick in `Recovering`: exactly one reopen request,
followed by the start command re-issue when the reopen succeeds. -/
theorem recovering_tick_effects (m : Machine) (inp : TickInput)
    (hs : m.state = SMState.Recovering) :
    (inp.reopenOk = true →
      (stepM m (Event.tick inp)).2 =
        [Effect.reopen, Effect.portWrite CMD_CONTINUOUS_RANGING]) ∧
    (inp.reopenOk = false → (stepM m (Event.tick inp)).2 = [Effect.reopen]) := by
  constructor
  · intro hro
    by_cases hw : inp.writeOk <;> simp [stepM, hs, hro, hw]
  · intro hro
    simp [stepM, hs, hro]

/-- Only a `stop` event can carry a running machine into `Stopped`. -/
theorem stopped_after_step (m : Machine) (e : Event)
    (h : (stepM m e).1.state = SMState.Stopped) :
    e = Event.stop ∨ m.state = SMState.Stopped := by
  cases e with
  | stop => exact Or.inl rfl
  | start w =>
    cases hs : m.state with
    | Stopped => exact Or.inr rfl
    | Starting => simp [stepM, hs] at h
    | Sampling => simp [stepM, hs] at h
    | Recovering => simp [stepM, hs] at h
  | tick inp =>
    cases hs : m.state with
    | Stopped => exact Or.inr rfl
    | Starting => simp [stepM, hs] at h
    | Sampling =>
      exfalso
      revert h
      simp only [stepM, hs]
      by_cases hr : inp.readOk
      · rcases hd : decodeLoop (m.buffer ++ inp.bytes) with ⟨o, rest, saw⟩
        cases o with
        | none =>
          cases saw
          · simp [hr, hd, hs]
          · by_cases ht : m.threshold < m.consecutiveErrors + 1 <;> simp [hr, hd, ht, hs]
        | some r => simp [hr, hd, hs]
      · simp only [Bool.not_eq_true] at hr
        by_cases ht : m.threshold < m.consecutiveErrors + 1 <;> simp [hr, ht, hs]
    | Recovering =>
      exfalso
      revert h
      by_cases hro : inp.reopenOk
      · by_cases hw : inp.writeOk <;> simp [stepM, hs, hro, hw]
      · simp only [Bool.not_eq_true] at hro
        simp [stepM, hs, hro]

/-- If a run of events carries a running machine into `Stopped`, some event
of the run is a `stop`. -/
theorem stop_mem_of_stopped (m : Machine) (es : List Event)
    (hm : ¬ m.state = SMState.Stopped)
    (h : (machineAfter m es).state = SMState.Stopped) : Event.stop ∈ es := by
  induction es generalizing m with
  | nil => exact absurd h hm
  | cons e es ih =>
    by_cases h1 : (stepM m e).1.state = SMState.Stopped
    · rcases stopped_after_step m e h1 with rfl | h2
      · exact List.mem_cons_self _ _
      · exact absurd h2 hm
    · exact List.mem_cons_of_mem _ (ih (stepM m e).1 h1 h)

/-- Any step that writes the start command either is a `start` call on a
stopped machine or also requests a port reopen in the same step. -/
theorem portWrite_mem_step (m : Machine) (e : Event)
    (h : Effect.portWrite CMD_CONTINUOUS_RANGING ∈ (stepM m e).2) :
    ((∃ w, e = Event.start w) ∧ m.state = SMState.Stopped) ∨
      Effect.reopen ∈ (stepM m e).2 := by
  cases e with
  | stop => simp [stepM] at h
  | start w =>
    cases hs : m.state with
    | Stopped => exact Or.inl ⟨⟨w, rfl⟩, rfl⟩
    | Starting => simp [stepM, hs] at h
    | Sampling => simp [stepM, hs] at h
    | Recovering => simp [stepM, hs] at h
  | tick inp =>
    cases hs : m.state with
    | Stopped => simp [stepM, hs] at h
    | Starting => simp [stepM, hs] at h
    | Sampling =>
      exfalso
      rcases sampling_tick_effects m inp hs with he | ⟨r, he⟩ <;> simp [he] at h
    | Recovering =>
      by_cases hro : inp.reopenOk
      · exact Or.inr (by simp [(recovering_tick_effects m inp hs).1 hro])
      · simp only [Bool.not_eq_true] at hro
        rw [(recovering_tick_effects m inp hs).2 hro] at h
        simp at h

/-- A step that writes the start command never lands in `Stopped`. -/
theorem portWrite_step_not_stopped (m : Machine) (e : Event)
    (h : Effect.portWrite CMD_CONTINUOUS_RANGING ∈ (stepM m e).2) :
    ¬ (stepM m e).1.state = SMState.Stopped := by
  intro hstop
  rcases stopped_after_step m e hstop with rfl | h2
  · simp [stepM] at h
  · cases e with
    | stop => simp [stepM] at h
    | start w =>
      revert hstop
      by_cases hw : w <;> simp [stepM, h2, hw]
    | tick inp => rw [stepM_stopped_tick m inp h2] at h; simp at h

/-- Running an appended event list runs the two parts in sequence. -/
theorem machineAfter_append (m : Machine) (xs ys : List Event) :
    machineAfter m (xs ++ ys) = machineAfter (machineAfter m xs) ys := by
  induction xs generalizing m with
  | nil => rfl
  | cons x xs ih => rw [List.cons_append, machineAfter, machineAfter, ih]

/-- The effect trace of an appended event list splits at the junction. -/
theorem effTrace_append (m : Machine) (xs ys : List Event) :
    effTrace m (xs ++ ys) = effTrace m xs ++ effTrace (machineAfter m xs) ys := by
  induction xs generalizing m with
  | nil => rfl
  | cons x xs ih =>
    rw [List.cons_append, effTrace, effTrace, machineAfter, ih, List.cons_append]

/-- C9: after `stop()` is called, every subsequent tick — until a `start()`
appears — performs no port-adapter reads, no writes, and publishes no
readings: the whole effect trace of any all-tick event run following the
stop is empty. -/
theorem C9_stop_quiesces :
    ∀ (m : Machine) (es : List Event), (∀ e ∈ es, isTickEvent e = true) →
      (effTrace (stepM m Event.stop).1 es).flatten = [] := by
  intro m es h
  exact ticksFromStopped (stepM m Event.stop).1 es (by simp [stepM]) h

/-- C9 witness: a freshly stopped machine stays silent over two concrete
ticks. -/
theorem C9_witness :
    (effTrace (stepM (initialMachine 3) Event.stop).1
      [Event.tick ⟨true, [1, 2, 3], true, true⟩,
        Event.tick ⟨false, [], true, true⟩]).flatten = [] :=
  C9_stop_quiesces (initialMachine 3)
    [Event.tick ⟨true, [1, 2, 3], true, true⟩, Event.tick ⟨false, [], true, true⟩]
    (by decide)

/-- C10: (1) when a sampling tick ends in an error and the consecutive
error count passes the configured threshold, the machine leaves `Sampling`
for `Recovering`, issuing no reopen or write yet; (2) the recovery tick
whose reopen succeeds issues exactly one reopen request and then the start
command, never landing in `Stopped`; (3) across any run of events, two
steps that both write the start command are separated by a `stop` event or
by a recovery (a reopen request) at or before the second write. -/
theorem C10_recovery_policy :
    (∀ (m : Machine) (inp : TickInput),
      m.state = SMState.Sampling → tickError m inp = true →
      m.threshold < m.consecutiveErrors + 1 →
      (stepM m (Event.tick inp)).1.state = SMState.Recovering ∧
        (stepM m (Event.tick inp)).2 = [Effect.portRead]) ∧
    (∀ (m : Machine) (inp : TickInput),
      m.state = SMState.Recovering → inp.reopenOk = true →
      (stepM m (Event.tick inp)).2 =
          [Effect.reopen, Effect.portWrite CMD_CONTINUOUS_RANGING] ∧
        ¬ (stepM m (Event.tick inp)).1.state = SMState.Stopped) ∧
    (∀ (m0 : Machine) (es1 : List Event) (e1 : Event) (es2 : List Event) (e2 : Event),
      Effect.portWrite CMD_CONTINUOUS_RANGING ∈ (stepM (machineAfter m0 es1) e1).2 →
      Effect.portWrite CMD_CONTINUOUS_RANGING ∈
        (stepM (machineAfter m0 (es1 ++ e1 :: es2)) e2).2 →
      Event.stop ∈ es2 ∨
        Effect.reopen ∈
          (effTrace (machineAfter m0 (es1 ++ [e1])) (es2 ++ [e2])).flatten) := by
  refine ⟨?_, ?_, ?_⟩
  · intro m inp hs herr hth
    simp only [stepM, hs]
    by_cases hr : inp.readOk
    · rcases hd : decodeLoop (m.buffer ++ inp.bytes) with ⟨o, rest, saw⟩
      cases o with
      | none =>
        cases saw
        · exfalso
          simp [tickError, hr, hd] at herr
        · simp [hr, hd, hth]
      | some r =>
        exfalso
        simp [tickError, hr, hd] at herr
    · simp only [Bool.not_eq_true] at hr
      simp [hr, hth]
  · intro m inp hs hro
    refine ⟨(recovering_tick_effects m inp hs).1 hro, ?_⟩
    by_cases hw : inp.writeOk <;> simp [stepM, hs, hro, hw]
  · intro m0 es1 e1 es2 e2 h1 h2
    have hA : machineAfter m0 (es1 ++ [e1]) = (stepM (machineAfter m0 es1) e1).1 := by
      rw [machineAfter_append]
      rfl
    have hAne : ¬ (machineAfter m0 (es1 ++ [e1])).state = SMState.Stopped := by
      rw [hA]
      exact portWrite_step_not_stopped _ e1 h1
    have hsplit : es1 ++ e1 :: es2 = (es1 ++ [e1]) ++ es2 := by simp
    rw [hsplit, machineAfter_append] at h2
    rcases portWrite_mem_step _ e2 h2 with ⟨⟨w, rfl⟩, hstop⟩ | hre
    · exact Or.inl (stop_mem_of_stopped _ es2 hAne hstop)
    · refine Or.inr ?_
      rw [effTrace_append]
      rw [List.mem_flatten]
      exact ⟨(stepM (machineAfter (machineAfter m0 (es1 ++ [e1])) es2) e2).2,
        by simp [effTrace], hre⟩

/-- C10 witness: the three parts at concrete inputs — a sampling machine
at its threshold on a failed read, a recovering machine with a successful
reopen, and a run where the second start-command write follows a stop. -/
theorem C10_witness :
    ((stepM ⟨SMState.Sampling, [], 3, 3⟩
        (Event.tick ⟨false, [], false, false⟩)).1.state = SMState.Recovering ∧
      (stepM ⟨SMState.Sampling, [], 3, 3⟩
        (Event.tick ⟨false, [], false, false⟩)).2 = [Effect.portRead]) ∧
    ((stepM ⟨SMState.Recovering, [], 0, 3⟩
        (Event.tick ⟨true, [], true, true⟩)).2 =
          [Effect.reopen, Effect.portWrite CMD_CONTINUOUS_RANGING] ∧
      ¬ (stepM ⟨SMState.Recovering, [], 0, 3⟩
        (Event.tick ⟨true, [], true, true⟩)).1.state = SMState.Stopped) ∧
    (Event.stop ∈ [Event.stop] ∨
      Effect.reopen ∈
        (effTrace (machineAfter (initialMachine 3) ([] ++ [Event.start true]))
          ([Event.stop] ++ [Event.start true])).flatten) :=
  ⟨C10_recovery_policy.1 ⟨SMState.Sampling, [], 3, 3⟩ ⟨false, [], false, false⟩
      rfl (by decide) (by decide),
    C10_recovery_policy.2.1 ⟨SMState.Recovering, [], 0, 3⟩ ⟨true, [], true, true⟩
      rfl rfl,
    C10_recovery_policy.2.2 (initialMachine 3) [] (Event.start true) [Event.stop]
      (Event.start true) (by decide) (by decide)⟩

end HPS167
